import Mathlib

/-!
Verification development for the QuantumProof Ops commit–compute–verify
pipeline (`app/main.py`).

The embedding translates the Python source into executable Lean
definitions:

* `stable_hash` is a concrete SHA3-256 (Keccak-f[1600], rate 1088,
  domain byte 0x06) over the UTF-8 bytes of the payload, producing the
  lowercase hex digest, exactly as `hashlib.sha3_256(payload.encode("utf-8")).hexdigest()`.
* Python dicts with string keys are embedded as association lists
  (`List (String × JVal)`), preserving insertion order; `json.dumps(..., sort_keys=True)`
  is embedded by `jdumps`, which sorts each object's fields by key
  (code-point lexicographic order, as Python string comparison) and uses
  Python's default separators and string escaping (`ensure_ascii=True`).
* Wall-clock quantities (`time.perf_counter()` durations, `utc_now_iso()`)
  are nondeterministic observational inputs: durations are modelled as the
  numbers the capability reports (0 in the fallback branches, exactly as in
  the source), and the current time is passed in as a string parameter.
* The TenSEAL homomorphic capability is external; its observable behaviour
  at the call sites is either raising an exception or returning a decrypted,
  clamped scalar, and is modelled by the `CapOutcome` parameter.  Python
  exceptions are modelled by `Except`.
-/

/-! ## Hex digits -/

def hexDigitChar : Nat → Char
  | 0 => '0' | 1 => '1' | 2 => '2' | 3 => '3' | 4 => '4' | 5 => '5' | 6 => '6' | 7 => '7'
  | 8 => '8' | 9 => '9' | 10 => 'a' | 11 => 'b' | 12 => 'c' | 13 => 'd' | 14 => 'e'
  | _ => 'f'

def hexDigitVal : Char → Nat
  | '0' => 0 | '1' => 1 | '2' => 2 | '3' => 3 | '4' => 4 | '5' => 5 | '6' => 6 | '7' => 7
  | '8' => 8 | '9' => 9 | 'a' => 10 | 'b' => 11 | 'c' => 12 | 'd' => 13 | 'e' => 14
  | 'f' => 15 | _ => 0

/-- The sixteen lowercase hex digits, `hexDigitChar` applied to `0..15`. -/
def hexDigits : List Char := (List.range 16).map hexDigitChar

/-- Value of a big-endian hex digit string, as Python `int(s, 16)`. -/
def hexToNat : List Char → Nat
  | [] => 0
  | c :: t => hexDigitVal c * 16 ^ t.length + hexToNat t

/-! ## SHA3-256 (Keccak-f[1600], rate 1088 bits)

Embeds `hashlib.sha3_256`.  Lanes are 64-bit words represented as `Nat`
kept below `2 ^ 64` by explicit masking; the state is the flat list of the
25 lanes, lane `(x, y)` at index `x + 5 * y`. -/

def mask64 : Nat := 18446744073709551615

def rotl64 (v n : Nat) : Nat := ((v <<< n) ||| (v >>> (64 - n))) &&& mask64

def rhoOffsets : List Nat :=
  [0, 1, 62, 28, 27] ++ [36, 44, 6, 55, 20] ++ [3, 10, 43, 25, 39] ++
    [41, 45, 15, 21, 8] ++ [18, 2, 61, 56, 14]

def keccakRC : List Nat :=
  [0x0000000000000001, 0x0000000000008082, 0x800000000000808a, 0x8000000080008000,
   0x000000000000808b, 0x0000000080000001, 0x8000000080008081, 0x8000000000008009,
   0x000000000000008a, 0x0000000000000088, 0x0000000080008009, 0x000000008000000a,
   0x000000008000808b, 0x800000000000008b, 0x8000000000008089, 0x8000000000008003,
   0x8000000000008002, 0x8000000000000080, 0x000000000000800a, 0x800000008000000a,
   0x8000000080008081, 0x8000000000008080, 0x0000000080000001, 0x8000000080008008]

def thetaStep (st : List Nat) : List Nat :=
  let col := fun x =>
    st.getD x 0 ^^^ st.getD (x + 5) 0 ^^^ st.getD (x + 10) 0 ^^^ st.getD (x + 15) 0 ^^^
      st.getD (x + 20) 0
  (List.range 25).map fun i =>
    st.getD i 0 ^^^ col ((i % 5 + 4) % 5) ^^^ rotl64 (col ((i % 5 + 1) % 5)) 1

def rhoPiStep (st : List Nat) : List Nat :=
  (List.range 25).map fun j =>
    let src := (j % 5 + 3 * (j / 5)) % 5 + 5 * (j % 5)
    rotl64 (st.getD src 0) (rhoOffsets.getD src 0)

def chiStep (st : List Nat) : List Nat :=
  (List.range 25).map fun j =>
    let x := j % 5
    let y := j / 5
    st.getD j 0 ^^^ ((st.getD ((x + 1) % 5 + 5 * y) 0 ^^^ mask64) &&&
      st.getD ((x + 2) % 5 + 5 * y) 0)

def iotaStep (rc : Nat) (st : List Nat) : List Nat :=
  match st with
  | [] => []
  | a :: rest => (a ^^^ rc) :: rest

def keccakF (st : List Nat) : List Nat :=
  keccakRC.foldl (fun s rc => iotaStep rc (chiStep (rhoPiStep (thetaStep s)))) st

def laneFromBytes (block : List Nat) (laneIdx : Nat) : Nat :=
  (List.range 8).foldl (fun acc j => acc ||| (block.getD (8 * laneIdx + j) 0 <<< (8 * j))) 0

def xorBlock (st : List Nat) (block : List Nat) : List Nat :=
  (List.range 25).map fun i =>
    if i < 17 then st.getD i 0 ^^^ laneFromBytes block i else st.getD i 0

/-- SHA-3 `pad10*1` padding with the SHA3 domain bits (first byte 0x06,
last byte 0x80, single byte 0x86 when only one byte is free). -/
def sha3Pad (len : Nat) : List Nat :=
  let r := 136 - len % 136
  if r = 1 then [0x86] else 0x06 :: (List.replicate (r - 2) 0 ++ [0x80])

def absorb (st : List Nat) : List Nat → List Nat
  | [] => st
  | b :: rest =>
    absorb (keccakF (xorBlock st ((b :: rest).take 136))) ((b :: rest).drop 136)
termination_by bytes => bytes.length
decreasing_by simp; omega

/-- SHA3-256 digest (32 bytes) of a byte string. -/
def sha3_256_bytes (msg : List Nat) : List Nat :=
  let padded := msg ++ sha3Pad msg.length
  let final := absorb (List.replicate 25 0) padded
  (List.range 32).map fun i => (final.getD (i / 8) 0 >>> (8 * (i % 8))) &&& 255

/-- UTF-8 encoding of one character. -/
def utf8Bytes (c : Char) : List Nat :=
  let n := c.toNat
  if n < 128 then [n]
  else if n < 2048 then [192 + n / 64, 128 + n % 64]
  else if n < 65536 then [224 + n / 4096, 128 + n / 64 % 64, 128 + n % 64]
  else [240 + n / 262144, 128 + n / 4096 % 64, 128 + n / 64 % 64, 128 + n % 64]

def strUtf8Chars : List Char → List Nat
  | [] => []
  | c :: t => utf8Bytes c ++ strUtf8Chars t

def strUtf8 (s : String) : List Nat := strUtf8Chars s.data

def hexOfBytes : List Nat → List Char
  | [] => []
  | b :: t => hexDigitChar (b / 16 % 16) :: hexDigitChar (b % 16) :: hexOfBytes t

/-- `stable_hash` from the source: SHA3-256 hex digest of the UTF-8 bytes. -/
def stable_hash (payload : String) : String :=
  String.mk (hexOfBytes (sha3_256_bytes (strUtf8 payload)))

/-! ## JSON values and `json.dumps(..., sort_keys=True)`

Python dicts are embedded as association lists in insertion order.  `jdumps`
matches `json.dumps` with `sort_keys=True`, default separators `", "` and
`": "`, and default `ensure_ascii=True` string escaping. -/

inductive JVal where
  | str (s : String)
  | int (n : Int)
  | bool (b : Bool)
  | obj (fields : List (String × JVal))

abbrev ComputeResult := List (String × JVal)

/-- Code-point lexicographic comparison, as Python `str` comparison. -/
def charsLe : List Char → List Char → Bool
  | [], _ => true
  | _ :: _, [] => false
  | c :: t, d :: u =>
    if c.toNat < d.toNat then true
    else if d.toNat < c.toNat then false
    else charsLe t u

def keyLe (a b : String) : Bool := charsLe a.data b.data

def insertPair {β : Type} (kv : String × β) : List (String × β) → List (String × β)
  | [] => [kv]
  | kv2 :: t => if keyLe kv.1 kv2.1 then kv :: kv2 :: t else kv2 :: insertPair kv t

/-- Insertion sort of dict items by key, as Python `sorted(d.items())`
(keys of a dict are pairwise distinct, so only keys are compared). -/
def sortPairs {β : Type} : List (String × β) → List (String × β)
  | [] => []
  | kv :: t => insertPair kv (sortPairs t)

def hex4 (n : Nat) : List Char :=
  [hexDigitChar (n / 4096 % 16), hexDigitChar (n / 256 % 16), hexDigitChar (n / 16 % 16),
   hexDigitChar (n % 16)]

/-- JSON string escaping of one character, as Python
`json.encoder.py_encode_basestring_ascii`: printable ASCII other than quote
and backslash kept, two-character shortcuts for the usual control characters,
`\uXXXX` for the rest of the BMP and for non-ASCII, surrogate pairs above
the BMP. -/
def escapeChar (c : Char) : List Char :=
  if c = '\\' then ['\\', '\\']
  else if c = '\"' then ['\\', '\"']
  else if c = '\n' then ['\\', 'n']
  else if c = '\r' then ['\\', 'r']
  else if c = '\t' then ['\\', 't']
  else if c.toNat = 8 then ['\\', 'b']
  else if c.toNat = 12 then ['\\', 'f']
  else if 32 ≤ c.toNat ∧ c.toNat ≤ 126 then [c]
  else if c.toNat < 65536 then '\\' :: 'u' :: hex4 c.toNat
  else ('\\' :: 'u' :: hex4 (55296 + (c.toNat - 65536) / 1024)) ++
       ('\\' :: 'u' :: hex4 (56320 + (c.toNat - 65536) % 1024))

def escapeList : List Char → List Char
  | [] => []
  | c :: t => escapeChar c ++ escapeList t

/-- JSON serialization of a string (quotes plus escaped content). -/
def jstr (s : String) : String := "\"" ++ String.mk (escapeList s.data) ++ "\""

def hex4Val (a b c d : Char) : Nat :=
  hexDigitVal a * 4096 + hexDigitVal b * 256 + hexDigitVal c * 16 + hexDigitVal d

/-- Combine a surrogate pair back into a code point. -/
def surrPair (hi lo : Nat) : Nat := 65536 + (hi - 55296) * 1024 + (lo - 56320)

mutual

/-- Decoder for `escapeList` output (code points); left inverse used to show
escaping is injective. -/
def unescape : List Char → List Nat
  | [] => []
  | c :: rest => if c = '\\' then unescapeEsc rest else c.toNat :: unescape rest
termination_by l => l.length
decreasing_by all_goals (simp; try omega)

def unescapeEsc : List Char → List Nat
  | [] => []
  | e :: rest =>
    if e = 'u' then unescapeU rest
    else if e = 'n' then 10 :: unescape rest
    else if e = 'r' then 13 :: unescape rest
    else if e = 't' then 9 :: unescape rest
    else if e = 'b' then 8 :: unescape rest
    else if e = 'f' then 12 :: unescape rest
    else if e = '\"' then 34 :: unescape rest
    else if e = '\\' then 92 :: unescape rest
    else []
termination_by l => l.length
decreasing_by all_goals (simp; try omega)

def unescapeU : List Char → List Nat
  | a :: b :: c :: d :: rest2 =>
    if 55296 ≤ hex4Val a b c d ∧ hex4Val a b c d ≤ 56319 then
      unescapeSurr (hex4Val a b c d) rest2
    else hex4Val a b c d :: unescape rest2
  | _ => []
termination_by l => l.length
decreasing_by all_goals (simp; try omega)

def unescapeSurr (hi : Nat) : List Char → List Nat
  | c1 :: c2 :: a :: b :: c :: d :: rest =>
    if c1 = '\\' ∧ c2 = 'u' then surrPair hi (hex4Val a b c d) :: unescape rest else []
  | _ => []
termination_by l => l.length
decreasing_by all_goals (simp; try omega)

end

/-- Join already-serialized object items `key ↦ rendered value` with the
default separators. -/
def joinItems : List (String × String) → String
  | [] => ""
  | [(k, v)] => jstr k ++ ": " ++ v
  | (k, v) :: rest => jstr k ++ ": " ++ v ++ ", " ++ joinItems rest

/-- `json.dumps(v, sort_keys=True)`.  Object fields are serialized and then
emitted in key-sorted order (sorting compares only keys, so sorting before
or after serializing the values is the same function). -/
def jdumps : JVal → String
  | .str s => jstr s
  | .int n => toString n
  | .bool b => cond b "true" "false"
  | .obj fs =>
    "\x7b" ++ joinItems (sortPairs (fs.attach.map fun x => (x.1.1, jdumps x.1.2))) ++ "\x7d"
decreasing_by
  obtain ⟨⟨k, v⟩, hx⟩ := x
  have h1 := List.sizeOf_lt_of_mem hx
  simp at h1 ⊢
  omega

/-! ## The pipeline (`app/main.py`) -/

def CIRCUIT_VERSION : String := "fhe-seal-v1"

def compute_input_fingerprint (sensitive_input : String) : String :=
  stable_hash ("fingerprint::" ++ sensitive_input)

/-- Observable behaviour of the TenSEAL homomorphic capability at a call
site: either some exception is raised (`fail` carries `str(e)`), or
construction and `encrypt_and_compute` succeed.  For success, `risk` is
`int(max(0.0, min(100.0, decrypted)))` — the clamped decrypted scalar, whose
value lives in unembeddable floating-point arithmetic — and the two numbers
are the measured wall-clock durations. -/
inductive CapOutcome where
  | fail (msg : String)
  | ok (risk : Int) (encMs compMs : Nat)

/-- `int(stable_hash(sensitive_input + scenario)[:8], 16) % 100`. -/
def numericSignal (sensitive_input scenario : String) : Nat :=
  hexToNat ((stable_hash (sensitive_input ++ scenario)).data.take 8) % 100

/-- The deterministic fallback `ComputeResult` (both fallback branches of
`perform_fhe_computation`; the error branch appends an `"error"` field). -/
def fallbackResult (sensitive_input scenario : String) (err : Option String) : ComputeResult :=
  [("risk_reduction_percent", .int (Int.ofNat (20 + numericSignal sensitive_input scenario % 61))),
   ("performance_overhead_percent", .int 100),
   ("recommended_rollout", .str "phased"),
   ("fhe_enabled", .bool false)] ++
  (match err with
   | none => []
   | some e => [("error", .str e)])

/-- `perform_fhe_computation`: returns (compute_result, mode,
encryption_time_ms, computation_time_ms).  `hasFHE` is the module-level
`HAS_FHE` flag; `cap` is the behaviour of the homomorphic capability inside
the `try` block (any exception falls back). -/
def perform_fhe_computation (hasFHE : Bool) (cap : CapOutcome)
    (sensitive_input scenario : String) : ComputeResult × String × Nat × Nat :=
  if !hasFHE then
    (fallbackResult sensitive_input scenario none, "fallback-no-fhe", 0, 0)
  else
    match cap with
    | .ok risk encMs compMs =>
      ([("risk_reduction_percent", .int risk),
        ("performance_overhead_percent", .int 5000),
        ("recommended_rollout", .str "phased"),
        ("fhe_enabled", .bool true),
        ("fhe_scheme", .str "CKKS (Microsoft SEAL)")],
       "fhe-seal-homomorphic-encryption", encMs, compMs)
    | .fail msg =>
      (fallbackResult sensitive_input scenario (some msg), "fallback-error", 0, 0)

/-- The `proof_statement` dict of `generate_zk_proof`, with the circuit
version generalized to a parameter (the source fixes it to the module
constant `CIRCUIT_VERSION`). -/
def zkStatement (circuit_version input_fingerprint : String) (compute_result : ComputeResult)
    (scenario : String) : JVal :=
  .obj [("type", .str "zero-knowledge-proof"),
        ("claim", .str "computation_correctness"),
        ("public_inputs", .obj [("input_fingerprint", .str input_fingerprint),
                                ("compute_result", .obj compute_result),
                                ("scenario", .str scenario)]),
        ("circuit_version", .str circuit_version),
        ("zk_system", .str "simulated-zkSNARK"),
        ("security_parameter", .int 128)]

/-- The exact byte string hashed by `generate_zk_proof` (the commitment's
preimage): `"zkproof::" + json.dumps(proof_statement, sort_keys=True)`. -/
def zkPayload (circuit_version input_fingerprint : String) (compute_result : ComputeResult)
    (scenario : String) : String :=
  "zkproof::" ++ jdumps (zkStatement circuit_version input_fingerprint compute_result scenario)

def generate_zk_proof_v (circuit_version input_fingerprint : String)
    (compute_result : ComputeResult) (scenario : String) : String :=
  stable_hash (zkPayload circuit_version input_fingerprint compute_result scenario)

/-- `generate_zk_proof` (the returned `proof_time_ms` wall-clock reading is
observational and not part of the hash). -/
def generate_zk_proof (input_fingerprint : String) (compute_result : ComputeResult)
    (scenario : String) : String :=
  generate_zk_proof_v CIRCUIT_VERSION input_fingerprint compute_result scenario

def verify_zk_proof (proof_hash input_fingerprint : String) (compute_result : ComputeResult)
    (scenario : String) : Bool :=
  proof_hash == generate_zk_proof input_fingerprint compute_result scenario

/-- Python exceptions escaping `run_once`: the explicit
`RuntimeError("ZK proof verification failed!")`, or an exception propagating
out of the un-guarded `FHECompute()` construction on line 209. -/
inductive RunError where
  | capError (msg : String)
  | zkError

structure BenchmarkMetrics where
  runtime_ms : Nat
  compute_mode : String
  encryption_time_ms : Nat
  computation_time_ms : Nat
  proof_time_ms : Nat

structure ProofArtifact where
  proof_hash : String
  verification_result : Bool
  circuit_version : String
  input_fingerprint : String
  crypto_primitives_used : List String
  fhe_parameters : JVal

structure RunResult where
  run_id : String
  timestamp_utc : String
  scenario : String
  compute_result : ComputeResult
  risk_context : String
  trust_model_comparison : String
  benchmark : BenchmarkMetrics
  proof : ProofArtifact

/-- `FHECompute.get_parameters()`. -/
def fheParametersDict : JVal :=
  .obj [("scheme", .str "CKKS"),
        ("poly_modulus_degree", .int 8192),
        ("security_level", .str "128-bit"),
        ("library", .str "Microsoft SEAL (via TenSEAL)")]

/-- The tail of `run_once` from proof generation onwards: generate the
commitment, run the verification gate, and either raise or assemble the
`RunResult`.  The wall-clock `runtime_ms`/`proof_time_ms` readings are
modelled as 0 (purely observational); `now_run_id` is the `utc_now_iso()`
reading hashed into the run id, `now_timestamp` the one stored in the
result. -/
def finishRun (verifier : String → String → ComputeResult → String → Bool)
    (input_fingerprint : String) (cr : ComputeResult × String × Nat × Nat)
    (crypto_primitives : List String) (fhe_params : JVal)
    (now_run_id now_timestamp scenario : String) : Except RunError RunResult :=
  let compute_result := cr.1
  let mode := cr.2.1
  let encT := cr.2.2.1
  let compT := cr.2.2.2
  let proof_hash := generate_zk_proof input_fingerprint compute_result scenario
  let verified := verifier proof_hash input_fingerprint compute_result scenario
  let run_id := "run-" ++ (stable_hash now_run_id).take 10
  if !verified then .error .zkError
  else .ok
    { run_id := run_id
      timestamp_utc := now_timestamp
      scenario := scenario
      compute_result := compute_result
      risk_context := "Quantum-resistant FHE + ZK proofs"
      trust_model_comparison := "Cryptographic verification vs traditional trust"
      benchmark :=
        { runtime_ms := 0
          compute_mode := mode
          encryption_time_ms := encT
          computation_time_ms := compT
          proof_time_ms := 0 }
      proof :=
        { proof_hash := proof_hash
          verification_result := verified
          circuit_version := CIRCUIT_VERSION
          input_fingerprint := input_fingerprint
          crypto_primitives_used := crypto_primitives
          fhe_parameters := fhe_params } }

/-- `run_once`, generalized over the verification step (the source applies
`verify_zk_proof`; the spec's gate invariant quantifies over a verification
step "forced to fail").  `cap` drives the capability inside
`perform_fhe_computation`'s `try`; `cap2` drives the second, un-guarded
`FHECompute()` construction of the non-fallback branch. -/
def run_once_gen (verifier : String → String → ComputeResult → String → Bool)
    (hasFHE : Bool) (cap cap2 : CapOutcome) (now_run_id now_timestamp : String)
    (sensitive_input scenario : String) (force_fallback : Bool) : Except RunError RunResult :=
  let input_fingerprint := compute_input_fingerprint sensitive_input
  if force_fallback || !hasFHE then
    finishRun verifier input_fingerprint
      (perform_fhe_computation hasFHE cap sensitive_input scenario)
      ["SHA3-256 (quantum-resistant)"] (.obj [("enabled", .bool false)])
      now_run_id now_timestamp scenario
  else
    let r := perform_fhe_computation hasFHE cap sensitive_input scenario
    match cap2 with
    | .fail m => .error (.capError m)
    | .ok _ _ _ =>
      finishRun verifier input_fingerprint r
        ["FHE: CKKS (Microsoft SEAL)",
         "Zero-Knowledge Proofs (zkSNARK structure)",
         "SHA3-256 (quantum-resistant)"]
        fheParametersDict now_run_id now_timestamp scenario

def run_once (hasFHE : Bool) (cap cap2 : CapOutcome) (now_run_id now_timestamp : String)
    (sensitive_input scenario : String) (force_fallback : Bool) : Except RunError RunResult :=
  run_once_gen verify_zk_proof hasFHE cap cap2 now_run_id now_timestamp sensitive_input
    scenario force_fallback

def isOkRun : Except RunError RunResult → Bool
  | .ok _ => true
  | .error _ => false

/-- `false` exactly when the run raised the ZK verification failure or
released a `RunResult` whose recorded verification outcome is `false`. -/
def zkGateHolds : Except RunError RunResult → Bool
  | .ok r => r.proof.verification_result
  | .error .zkError => false
  | .error (.capError _) => true

/-- The named compute-result field of a released run (none when the run
raised). -/
def runComputeField (e : Except RunError RunResult) (k : String) : Option JVal :=
  match e with
  | .ok r => r.compute_result.lookup k
  | .error _ => none

/-- The benchmark's compute mode of a released run. -/
def runMode : Except RunError RunResult → Option String
  | .ok r => some r.benchmark.compute_mode
  | .error _ => none

/-! ## Properties of the key order and of `sortPairs` -/

theorem char_toNat_inj {a b : Char} (h : a.toNat = b.toNat) : a = b := by
  have ha := Char.ofNat_toNat a
  rw [h, Char.ofNat_toNat] at ha
  exact ha.symm

theorem charsLe_total : ∀ a b : List Char, charsLe a b = true ∨ charsLe b a = true := by
  intro a
  induction a with
  | nil => intro b; left; rfl
  | cons c t ih =>
    intro b
    cases b with
    | nil => right; rfl
    | cons d u =>
      by_cases h1 : c.toNat < d.toNat
      · left; simp [charsLe, h1]
      · by_cases h2 : d.toNat < c.toNat
        · right; simp [charsLe, h1, h2]
        · rcases ih u with h | h
          · left; simp [charsLe, h1, h2, h]
          · right
            simp [charsLe, h1, h2, h]

theorem charsLe_trans :
    ∀ a b c : List Char, charsLe a b = true → charsLe b c = true → charsLe a c = true := by
  intro a
  induction a with
  | nil => intro b c _ _; rfl
  | cons x xs ih =>
    intro b c hab hbc
    cases b with
    | nil => simp [charsLe] at hab
    | cons y ys =>
      cases c with
      | nil => simp [charsLe] at hbc
      | cons z zs =>
        simp only [charsLe] at hab hbc ⊢
        split_ifs at hab hbc ⊢ <;> try (first | rfl | omega)
        · exact ih ys zs hab hbc

theorem charsLe_antisymm :
    ∀ a b : List Char, charsLe a b = true → charsLe b a = true → a = b := by
  intro a
  induction a with
  | nil =>
    intro b _ hba
    cases b with
    | nil => rfl
    | cons d u => simp [charsLe] at hba
  | cons c t ih =>
    intro b hab hba
    cases b with
    | nil => simp [charsLe] at hab
    | cons d u =>
      simp only [charsLe] at hab hba
      split_ifs at hab hba <;> try omega
      have hcd : c = d := char_toNat_inj (by omega)
      rw [hcd, ih u hab hba]

theorem keyLe_total (a b : String) : keyLe a b = true ∨ keyLe b a = true :=
  charsLe_total a.data b.data

theorem keyLe_trans {a b c : String} (h1 : keyLe a b = true) (h2 : keyLe b c = true) :
    keyLe a c = true :=
  charsLe_trans a.data b.data c.data h1 h2

theorem keyLe_antisymm {a b : String} (h1 : keyLe a b = true) (h2 : keyLe b a = true) :
    a = b :=
  String.ext (charsLe_antisymm a.data b.data h1 h2)

theorem insertPair_perm {β : Type} (kv : String × β) (l : List (String × β)) :
    (insertPair kv l).Perm (kv :: l) := by
  induction l with
  | nil => simp [insertPair]
  | cons kv2 t ih =>
    simp only [insertPair]
    split
    · exact List.Perm.refl _
    · exact (ih.cons kv2).trans (List.Perm.swap kv kv2 t)

theorem sortPairs_perm {β : Type} (l : List (String × β)) : (sortPairs l).Perm l := by
  induction l with
  | nil => simp [sortPairs]
  | cons kv t ih => exact (insertPair_perm kv (sortPairs t)).trans (ih.cons kv)

theorem insertPair_sorted {β : Type} (kv : String × β) (l : List (String × β))
    (h : l.Pairwise (fun a b => keyLe a.1 b.1 = true)) :
    (insertPair kv l).Pairwise (fun a b => keyLe a.1 b.1 = true) := by
  induction l with
  | nil => simp [insertPair]
  | cons kv2 t ih =>
    rw [List.pairwise_cons] at h
    simp only [insertPair]
    split
    · rw [List.pairwise_cons]
      constructor
      · intro a ha
        rcases List.mem_cons.mp ha with rfl | ha
        · assumption
        · exact keyLe_trans ‹keyLe kv.1 kv2.1 = true› (h.1 a ha)
      · exact List.pairwise_cons.mpr h
    · rw [List.pairwise_cons]
      constructor
      · intro a ha
        have := (insertPair_perm kv t).mem_iff.mp ha
        rcases List.mem_cons.mp this with rfl | ha2
        · rcases keyLe_total a.1 kv2.1 with htot | htot
          · exact absurd htot ‹¬keyLe a.1 kv2.1 = true›
          · exact htot
        · exact h.1 a ha2
      · exact ih h.2

theorem sortPairs_sorted {β : Type} (l : List (String × β)) :
    (sortPairs l).Pairwise (fun a b => keyLe a.1 b.1 = true) := by
  induction l with
  | nil => simp [sortPairs]
  | cons kv t ih => exact insertPair_sorted kv (sortPairs t) ih

theorem sorted_nodup_perm_eq {β : Type} :
    ∀ l1 l2 : List (String × β), l1.Perm l2 →
      l1.Pairwise (fun a b => keyLe a.1 b.1 = true) →
      l2.Pairwise (fun a b => keyLe a.1 b.1 = true) →
      (l1.map Prod.fst).Nodup → l1 = l2 := by
  intro l1
  induction l1 with
  | nil => intro l2 hp _ _ _; exact (hp.symm.eq_nil).symm
  | cons a t1 ih =>
    intro l2 hp hs1 hs2 hn
    cases l2 with
    | nil => exact absurd hp.eq_nil (by simp)
    | cons b t2 =>
      have hab : a = b := by
        have hamem : a ∈ b :: t2 := hp.mem_iff.mp (List.mem_cons_self a t1)
        rcases List.mem_cons.mp hamem with rfl | hat2
        · rfl
        · have hba : keyLe b.1 a.1 = true := List.rel_of_pairwise_cons hs2 hat2
          have hbmem : b ∈ a :: t1 := hp.mem_iff.mpr (List.mem_cons_self b t2)
          rcases List.mem_cons.mp hbmem with rfl | hbt1
          · rfl
          · have hab2 : keyLe a.1 b.1 = true := List.rel_of_pairwise_cons hs1 hbt1
            have hkeys : a.1 = b.1 := keyLe_antisymm hab2 hba
            rw [List.map_cons, List.nodup_cons] at hn
            exact absurd (hkeys ▸ List.mem_map_of_mem Prod.fst hbt1) hn.1
      subst hab
      have hp2 := hp.cons_inv
      rw [ih t2 hp2 (List.pairwise_cons.mp hs1).2 (List.pairwise_cons.mp hs2).2
        (by rw [List.map_cons, List.nodup_cons] at hn; exact hn.2)]

theorem sortPairs_eq_of_perm {β : Type} {l1 l2 : List (String × β)} (hp : l1.Perm l2)
    (hn : (l1.map Prod.fst).Nodup) : sortPairs l1 = sortPairs l2 := by
  refine sorted_nodup_perm_eq _ _ ?_ (sortPairs_sorted l1) (sortPairs_sorted l2) ?_
  · exact (sortPairs_perm l1).trans (hp.trans (sortPairs_perm l2).symm)
  · exact (((sortPairs_perm l1).map Prod.fst).nodup_iff).mpr hn

/-! ## Unfolding equations for `jdumps` -/

theorem jdumps_str (s : String) : jdumps (.str s) = jstr s := by
  simp [jdumps]

theorem jdumps_int (n : Int) : jdumps (.int n) = toString n := by
  simp [jdumps]

theorem jdumps_bool (b : Bool) : jdumps (.bool b) = cond b "true" "false" := by
  simp [jdumps]

theorem jdumps_obj (fs : List (String × JVal)) :
    jdumps (.obj fs) =
      "\x7b" ++ joinItems (sortPairs (fs.map fun kv => (kv.1, jdumps kv.2))) ++ "\x7d" := by
  rw [jdumps]
  have h : List.map (fun x : {x // x ∈ fs} => ((x : String × JVal).1, jdumps (x : String × JVal).2))
        fs.attach = List.map (fun kv => (kv.1, jdumps kv.2)) fs :=
    List.attach_map_val fs (fun kv => (kv.1, jdumps kv.2))
  rw [h]

/-! ## C1: commitment round-trip -/

theorem verify_generate_true (f : String) (c : ComputeResult) (s : String) :
    verify_zk_proof (generate_zk_proof f c s) f c s = true := by
  simp [verify_zk_proof]

/-- C1 (confirmed): for every fingerprint string, compute-result mapping and
scenario string, verifying the freshly generated commitment against the same
inputs succeeds: `verify_zk_proof h f c s = true` where
`h = generate_zk_proof f c s`. -/
theorem c1_commitment_roundtrip (f : String) (c : ComputeResult) (s : String) :
    verify_zk_proof (generate_zk_proof f c s) f c s = true := by
  simp [verify_zk_proof]

/-! ## C4: fallback safety -/

/-- C4 (confirmed): when the homomorphic capability raises (any exception,
message `msg`), `perform_fhe_computation` still returns the complete
deterministic Simulated-mode result — all semantic fields present and derived
from the hash rules, the degraded state recorded as `fhe_enabled = false`
(plus the recorded error message), mode `"fallback-error"` — instead of
propagating the exception. -/
theorem c4_fallback_safety (sensitive_input scenario msg : String) :
    (perform_fhe_computation true (.fail msg) sensitive_input scenario).1 =
        fallbackResult sensitive_input scenario (some msg) ∧
      (fallbackResult sensitive_input scenario (some msg)).lookup "risk_reduction_percent" =
        some (.int ((20 + numericSignal sensitive_input scenario % 61 : Nat) : Int)) ∧
      (fallbackResult sensitive_input scenario (some msg)).lookup "performance_overhead_percent" =
        some (.int 100) ∧
      (fallbackResult sensitive_input scenario (some msg)).lookup "recommended_rollout" =
        some (.str "phased") ∧
      (fallbackResult sensitive_input scenario (some msg)).lookup "fhe_enabled" =
        some (.bool false) ∧
      (fallbackResult sensitive_input scenario (some msg)).lookup "error" =
        some (.str msg) ∧
      (perform_fhe_computation true (.fail msg) sensitive_input scenario).2.1 =
        "fallback-error" :=
  ⟨rfl, rfl, rfl, rfl, rfl, rfl, rfl⟩

/-! ## C6: simulated overhead (corrected) -/

/-- C6 counterexample: at input `"demo-sensitive"`, scenario
`"test-scenario"`, the Simulated compute variant produces
`performance_overhead_percent = 100`, which is not in the claimed range
`[2, 20]`. -/
theorem c6_overhead_counterexample :
    (perform_fhe_computation false (.fail "") "demo-sensitive" "test-scenario").1.lookup
        "performance_overhead_percent" = some (.int 100) ∧
      ¬((2 : Int) ≤ 100 ∧ (100 : Int) ≤ 20) :=
  ⟨rfl, by decide⟩

/-- C6 (corrected): for every input and scenario, the ComputeResult produced
by the Simulated compute variant has `performance_overhead_percent` equal to
the constant 100 (hence outside the claimed range `[2, 20]`). -/
theorem c6_overhead_amended (sensitive_input scenario : String) (err : Option String) :
    (fallbackResult sensitive_input scenario err).lookup "performance_overhead_percent" =
      some (.int 100) :=
  rfl

/-! ## C7: simulated risk-reduction range -/

/-- C7 (confirmed): for every input and scenario (and in both fallback
branches), the Simulated compute variant's `risk_reduction_percent` equals
`20 + (numeric signal mod 61)` and lies in `[20, 80]`. -/
theorem c7_risk_reduction_range (sensitive_input scenario : String) (err : Option String) :
    (fallbackResult sensitive_input scenario err).lookup "risk_reduction_percent" =
        some (.int ((20 + numericSignal sensitive_input scenario % 61 : Nat) : Int)) ∧
      20 ≤ ((20 + numericSignal sensitive_input scenario % 61 : Nat) : Int) ∧
      ((20 + numericSignal sensitive_input scenario % 61 : Nat) : Int) ≤ 80 := by
  refine ⟨rfl, ?_, ?_⟩
  · omega
  · have h := Nat.mod_lt (numericSignal sensitive_input scenario) (show 0 < 61 by omega)
    omega

/-! ## C5: commitment determinism and canonical serialization -/

theorem jdumps_obj_eq_of_perm {c1 c2 : ComputeResult} (hp : c1.Perm c2)
    (hn : (c1.map Prod.fst).Nodup) : jdumps (.obj c1) = jdumps (.obj c2) := by
  rw [jdumps_obj, jdumps_obj]
  have hperm : (c1.map fun kv => (kv.1, jdumps kv.2)).Perm
      (c2.map fun kv => (kv.1, jdumps kv.2)) := hp.map _
  have hnod : ((c1.map fun kv => (kv.1, jdumps kv.2)).map Prod.fst).Nodup := by
    rw [List.map_map]
    exact hn
  rw [sortPairs_eq_of_perm hperm hnod]

/-- C5 (confirmed): the commitment hash is a pure function of
(fingerprint, compute result, scenario) — there is no randomness or nonce in
the embedding, and two compute-result mappings that are equal as mappings
(a permutation of each other, with distinct keys) yield the identical proof
hash, because the serialization sorts object keys. -/
theorem c5_commitment_determinism (f s : String) (c1 c2 : ComputeResult)
    (hp : c1.Perm c2) (hn : (c1.map Prod.fst).Nodup) :
    generate_zk_proof f c1 s = generate_zk_proof f c2 s := by
  have hin : jdumps (.obj c1) = jdumps (.obj c2) := jdumps_obj_eq_of_perm hp hn
  have hPI : jdumps (.obj [("input_fingerprint", .str f), ("compute_result", .obj c1),
        ("scenario", .str s)]) =
      jdumps (.obj [("input_fingerprint", .str f), ("compute_result", .obj c2),
        ("scenario", .str s)]) := by
    rw [jdumps_obj [("input_fingerprint", .str f), ("compute_result", .obj c1),
      ("scenario", .str s)]]
    rw [jdumps_obj [("input_fingerprint", .str f), ("compute_result", .obj c2),
      ("scenario", .str s)]]
    simp only [List.map_cons, List.map_nil]
    rw [hin]
  refine congrArg stable_hash (congrArg (fun t => "zkproof::" ++ t) ?_)
  show jdumps (zkStatement CIRCUIT_VERSION f c1 s) = jdumps (zkStatement CIRCUIT_VERSION f c2 s)
  simp only [zkStatement]
  rw [jdumps_obj [("type", .str "zero-knowledge-proof"),
    ("claim", .str "computation_correctness"),
    ("public_inputs", .obj [("input_fingerprint", .str f), ("compute_result", .obj c1),
      ("scenario", .str s)]),
    ("circuit_version", .str CIRCUIT_VERSION),
    ("zk_system", .str "simulated-zkSNARK"),
    ("security_parameter", .int 128)]]
  rw [jdumps_obj [("type", .str "zero-knowledge-proof"),
    ("claim", .str "computation_correctness"),
    ("public_inputs", .obj [("input_fingerprint", .str f), ("compute_result", .obj c2),
      ("scenario", .str s)]),
    ("circuit_version", .str CIRCUIT_VERSION),
    ("zk_system", .str "simulated-zkSNARK"),
    ("security_parameter", .int 128)]]
  simp only [List.map_cons, List.map_nil]
  rw [hPI]

/-- Witness for C5 at a concrete reordered mapping. -/
theorem c5_commitment_determinism_witness :
    ([("a", JVal.int 1), ("b", JVal.int 2)] : ComputeResult).Perm
        [("b", JVal.int 2), ("a", JVal.int 1)] ∧
      (([("a", JVal.int 1), ("b", JVal.int 2)] : ComputeResult).map Prod.fst).Nodup ∧
      generate_zk_proof "f" [("a", JVal.int 1), ("b", JVal.int 2)] "s" =
        generate_zk_proof "f" [("b", JVal.int 2), ("a", JVal.int 1)] "s" :=
  ⟨List.Perm.swap ("b", JVal.int 2) ("a", JVal.int 1) [], by decide,
    c5_commitment_determinism "f" "s" _ _
      (List.Perm.swap ("b", JVal.int 2) ("a", JVal.int 1) []) (by decide)⟩

/-! ## C8: the fingerprinter -/

theorem hexOfBytes_length (bs : List Nat) : (hexOfBytes bs).length = 2 * bs.length := by
  induction bs with
  | nil => rfl
  | cons b t ih => simp [hexOfBytes, ih]; omega

theorem stable_hash_data_length (p : String) : (stable_hash p).data.length = 64 := by
  simp [stable_hash, hexOfBytes_length, sha3_256_bytes]

theorem hexDigitChar_mem (n : Nat) : hexDigitChar n ∈ hexDigits := by
  unfold hexDigitChar
  split <;> decide

theorem hexOfBytes_hex (bs : List Nat) : ∀ ch ∈ hexOfBytes bs, ch ∈ hexDigits := by
  induction bs with
  | nil => intro ch h; cases h
  | cons b t ih =>
    intro ch h
    rcases h with _ | ⟨_, h⟩
    · exact hexDigitChar_mem _
    · rcases h with _ | ⟨_, h⟩
      · exact hexDigitChar_mem _
      · exact ih ch h

theorem stable_hash_hex (p : String) : ∀ ch ∈ (stable_hash p).data, ch ∈ hexDigits :=
  hexOfBytes_hex _

/-- C8 (confirmed): `compute_input_fingerprint` is total, pure and
deterministic (it is a Lean function); for every input string — the empty
string included — it equals the SHA3-256 hex digest of
`"fingerprint::" ++ input`, and that digest has the fixed length 64 and
consists only of lowercase hex digits. -/
theorem c8_fingerprinter_contract (s : String) :
    compute_input_fingerprint s = stable_hash ("fingerprint::" ++ s) ∧
      (compute_input_fingerprint s).length = 64 ∧
      ((compute_input_fingerprint s).data.all fun ch => decide (ch ∈ hexDigits)) = true := by
  refine ⟨rfl, stable_hash_data_length _, ?_⟩
  rw [List.all_eq_true]
  intro x hx
  exact decide_eq_true (stable_hash_hex _ x hx)

/-! ## Hex-string arithmetic (for C9) -/

theorem hexDigitVal_lt (c : Char) : hexDigitVal c < 16 := by
  unfold hexDigitVal
  split <;> omega

theorem hexToNat_lt (l : List Char) : hexToNat l < 16 ^ l.length := by
  induction l with
  | nil => simp [hexToNat]
  | cons c t ih =>
    simp only [hexToNat, List.length_cons]
    have h1 := hexDigitVal_lt c
    have h2 : 16 ^ (t.length + 1) = 16 * 16 ^ t.length := by ring
    have h3 : hexDigitVal c * 16 ^ t.length ≤ 15 * 16 ^ t.length :=
      Nat.mul_le_mul_right _ (by omega)
    omega

theorem hex_val_inj :
    ∀ c1 ∈ hexDigits, ∀ c2 ∈ hexDigits, hexDigitVal c1 = hexDigitVal c2 → c1 = c2 := by
  decide

theorem hexToNat_inj :
    ∀ l1 l2 : List Char, l1.length = l2.length → (∀ c ∈ l1, c ∈ hexDigits) →
      (∀ c ∈ l2, c ∈ hexDigits) → hexToNat l1 = hexToNat l2 → l1 = l2 := by
  intro l1
  induction l1 with
  | nil =>
    intro l2 hlen _ _ _
    cases l2 with
    | nil => rfl
    | cons d u => simp at hlen
  | cons c t ih =>
    intro l2 hlen hh1 hh2 hv
    cases l2 with
    | nil => simp at hlen
    | cons d u =>
      simp only [List.length_cons] at hlen
      have hlen2 : t.length = u.length := by omega
      simp only [hexToNat, hlen2] at hv
      have hb1 : hexToNat t < 16 ^ u.length := hlen2 ▸ hexToNat_lt t
      have hb2 : hexToNat u < 16 ^ u.length := hexToNat_lt u
      have hpos : 0 < 16 ^ u.length := Nat.pos_pow_of_pos _ (by omega)
      have hdiv1 : (hexDigitVal c * 16 ^ u.length + hexToNat t) / 16 ^ u.length =
          hexDigitVal c := by
        rw [Nat.mul_comm (hexDigitVal c) _, Nat.mul_add_div hpos, Nat.div_eq_of_lt hb1]
        omega
      have hdiv2 : (hexDigitVal d * 16 ^ u.length + hexToNat u) / 16 ^ u.length =
          hexDigitVal d := by
        rw [Nat.mul_comm (hexDigitVal d) _, Nat.mul_add_div hpos, Nat.div_eq_of_lt hb2]
        omega
      have hd : hexDigitVal c = hexDigitVal d := by rw [← hdiv1, ← hdiv2, hv]
      have hc : c = d :=
        hex_val_inj c (hh1 c (List.mem_cons_self c t)) d (hh2 d (List.mem_cons_self d u)) hd
      rw [hd] at hv
      have ht : hexToNat t = hexToNat u := by omega
      rw [hc, ih u hlen2 (fun x hx => hh1 x (List.mem_cons_of_mem c hx))
        (fun x hx => hh2 x (List.mem_cons_of_mem d hx)) ht]

/-! ## C9: circuit-version sensitivity -/

/-- C9 counterexample: the claim "two distinct circuit-version values never
yield the same commitment hash" is false: commitments are 64-character hex
digests, so only `16 ^ 64` values exist, while there are more than `16 ^ 64`
distinct circuit-version strings — by pigeonhole, two distinct versions
collide (over fingerprint `"f"`, the empty compute result, scenario
`"s"`). -/
theorem c9_circuit_version_counterexample :
    ¬ ∀ (f : String) (c : ComputeResult) (s v1 v2 : String), v1 ≠ v2 →
      generate_zk_proof_v v1 f c s ≠ generate_zk_proof_v v2 f c s := by
  intro h
  have hlen64 : ∀ n : Nat,
      (generate_zk_proof_v (String.mk (List.replicate n 'a')) "f" [] "s").data.length = 64 :=
    fun n => stable_hash_data_length (zkPayload (String.mk (List.replicate n 'a')) "f" [] "s")
  have hbound : ∀ i : Fin (16 ^ 64 + 1),
      hexToNat (generate_zk_proof_v (String.mk (List.replicate i.1 'a')) "f" [] "s").data <
        16 ^ 64 := by
    intro i
    have hlt := hexToNat_lt (generate_zk_proof_v (String.mk (List.replicate i.1 'a')) "f" [] "s").data
    rw [hlen64 i.1] at hlt
    exact hlt
  obtain ⟨i, j, hij, hGij⟩ := Fintype.exists_ne_map_eq_of_card_lt
    (fun i : Fin (16 ^ 64 + 1) =>
      (⟨hexToNat (generate_zk_proof_v (String.mk (List.replicate i.1 'a')) "f" [] "s").data,
        hbound i⟩ : Fin (16 ^ 64)))
    (by rw [Fintype.card_fin, Fintype.card_fin]; exact Nat.lt_succ_self _)
  have hvals : hexToNat (generate_zk_proof_v (String.mk (List.replicate i.1 'a')) "f" [] "s").data =
      hexToNat (generate_zk_proof_v (String.mk (List.replicate j.1 'a')) "f" [] "s").data := by
    simpa using congrArg Fin.val hGij
  have hne : String.mk (List.replicate i.1 'a') ≠ String.mk (List.replicate j.1 'a') := by
    intro he
    apply hij
    have hlen := congrArg (fun s : String => s.data.length) he
    simp only [List.length_replicate] at hlen
    exact Fin.ext hlen
  have heq : generate_zk_proof_v (String.mk (List.replicate i.1 'a')) "f" [] "s" =
      generate_zk_proof_v (String.mk (List.replicate j.1 'a')) "f" [] "s" := by
    apply String.ext
    refine hexToNat_inj _ _ ?_ ?_ ?_ hvals
    · rw [hlen64 i.1, hlen64 j.1]
    · exact stable_hash_hex (zkPayload (String.mk (List.replicate i.1 'a')) "f" [] "s")
    · exact stable_hash_hex (zkPayload (String.mk (List.replicate j.1 'a')) "f" [] "s")
  exact h "f" [] "s" _ _ hne heq

/-! ## The JSON escape is injective (decoder round-trip) -/

theorem hexDigitVal_hexDigitChar : ∀ k, k < 16 → hexDigitVal (hexDigitChar k) = k := by
  decide

theorem hex4Val_hex4 (n : Nat) (h : n < 65536) :
    hex4Val (hexDigitChar (n / 4096 % 16)) (hexDigitChar (n / 256 % 16))
      (hexDigitChar (n / 16 % 16)) (hexDigitChar (n % 16)) = n := by
  unfold hex4Val
  rw [hexDigitVal_hexDigitChar _ (Nat.mod_lt _ (by omega)),
    hexDigitVal_hexDigitChar _ (Nat.mod_lt _ (by omega)),
    hexDigitVal_hexDigitChar _ (Nat.mod_lt _ (by omega)),
    hexDigitVal_hexDigitChar _ (Nat.mod_lt _ (by omega))]
  omega

theorem char_valid_nat (c : Char) :
    c.toNat < 55296 ∨ (57343 < c.toNat ∧ c.toNat < 1114112) :=
  c.valid

theorem string_mk_data (l : List Char) : (String.mk l).data = l := rfl

theorem unescape_escapeChar (c : Char) (rest : List Char) :
    unescape (escapeChar c ++ rest) = c.toNat :: unescape rest := by
  have hval := char_valid_nat c
  simp only [escapeChar]
  split_ifs with h1 h2 h3 h4 h5 h6 h7 h8 h9
  · subst h1
    show unescape ('\\' :: '\\' :: rest) = 92 :: unescape rest
    rw [unescape, unescapeEsc]
    simp
  · subst h2
    show unescape ('\\' :: '\"' :: rest) = 34 :: unescape rest
    rw [unescape, unescapeEsc]
    simp
  · subst h3
    show unescape ('\\' :: 'n' :: rest) = 10 :: unescape rest
    rw [unescape, unescapeEsc]
    simp
  · subst h4
    show unescape ('\\' :: 'r' :: rest) = 13 :: unescape rest
    rw [unescape, unescapeEsc]
    simp
  · subst h5
    show unescape ('\\' :: 't' :: rest) = 9 :: unescape rest
    rw [unescape, unescapeEsc]
    simp
  · show unescape ('\\' :: 'b' :: rest) = c.toNat :: unescape rest
    rw [unescape, unescapeEsc, h6]
    simp
  · show unescape ('\\' :: 'f' :: rest) = c.toNat :: unescape rest
    rw [unescape, unescapeEsc, h7]
    simp
  · show unescape (c :: rest) = c.toNat :: unescape rest
    rw [unescape, if_neg h1]
  · -- basic multilingual plane, escaped as a single \uXXXX
    simp only [hex4, List.cons_append, List.nil_append]
    rw [unescape, unescapeEsc]
    simp only [reduceIte]
    rw [unescapeU]
    rw [hex4Val_hex4 c.toNat h9]
    rw [if_neg (by omega)]
  · -- astral plane, escaped as a surrogate pair
    simp only [hex4, List.cons_append, List.nil_append, List.append_assoc]
    rw [unescape, unescapeEsc]
    simp only [reduceIte]
    rw [unescapeU]
    rw [hex4Val_hex4 (55296 + (c.toNat - 65536) / 1024) (by omega)]
    rw [if_pos (by omega)]
    rw [unescapeSurr]
    simp only [reduceIte]
    rw [hex4Val_hex4 (56320 + (c.toNat - 65536) % 1024) (by omega)]
    rw [show surrPair (55296 + (c.toNat - 65536) / 1024) (56320 + (c.toNat - 65536) % 1024) =
      c.toNat from by unfold surrPair; omega]
    simp

theorem unescape_escapeList (l : List Char) : unescape (escapeList l) = l.map Char.toNat := by
  induction l with
  | nil => simp [escapeList, unescape]
  | cons c t ih =>
    show unescape (escapeChar c ++ escapeList t) = (c :: t).map Char.toNat
    rw [unescape_escapeChar, ih, List.map_cons]

theorem map_toNat_inj : ∀ l1 l2 : List Char, l1.map Char.toNat = l2.map Char.toNat → l1 = l2 := by
  intro l1
  induction l1 with
  | nil =>
    intro l2 h
    cases l2 with
    | nil => rfl
    | cons d u => simp at h
  | cons c t ih =>
    intro l2 h
    cases l2 with
    | nil => simp at h
    | cons d u =>
      simp only [List.map_cons, List.cons.injEq] at h
      rw [char_toNat_inj h.1, ih u h.2]

theorem escapeList_inj {l1 l2 : List Char} (h : escapeList l1 = escapeList l2) : l1 = l2 := by
  have h1 := congrArg unescape h
  rw [unescape_escapeList, unescape_escapeList] at h1
  exact map_toNat_inj l1 l2 h1

/-- C9 amended: for fixed fingerprint, compute result and scenario, two
distinct circuit-version strings always yield distinct commitment
*preimages* (the exact byte strings that are hashed); equal commitment
hashes for distinct versions would therefore require a SHA3-256 collision,
which the counterexample shows must exist for some pair but which is
computationally infeasible to exhibit. -/
theorem c9_circuit_version_amended (f : String) (c : ComputeResult) (s v1 v2 : String)
    (hne : v1 ≠ v2) : zkPayload v1 f c s ≠ zkPayload v2 f c s := by
  intro heq
  apply hne
  have hd := congrArg String.data heq
  simp only [zkPayload, zkStatement, jdumps_obj, jdumps_str, jdumps_int, List.map_cons,
    List.map_nil] at hd
  have hs6 : ∀ (u : String) (pi : String),
      sortPairs [("type", jstr "zero-knowledge-proof"),
        ("claim", jstr "computation_correctness"),
        ("public_inputs", pi),
        ("circuit_version", jstr u),
        ("zk_system", jstr "simulated-zkSNARK"),
        ("security_parameter", toString (128 : Int))] =
      [("circuit_version", jstr u),
        ("claim", jstr "computation_correctness"),
        ("public_inputs", pi),
        ("security_parameter", toString (128 : Int)),
        ("type", jstr "zero-knowledge-proof"),
        ("zk_system", jstr "simulated-zkSNARK")] := fun u pi => rfl
  have hs3 : ∀ x y z : String,
      sortPairs [("input_fingerprint", x), ("compute_result", y), ("scenario", z)] =
      [("compute_result", y), ("input_fingerprint", x), ("scenario", z)] := fun x y z => rfl
  rw [hs6, hs6, hs3] at hd
  simp only [joinItems, jstr, String.data_append, string_mk_data, List.append_assoc] at hd
  simp only [List.append_right_inj] at hd
  exact String.ext (escapeList_inj (List.append_cancel_right hd))

/-- Witness for the C9 amended theorem at concrete distinct versions. -/
theorem c9_circuit_version_amended_witness :
    ("v-a" : String) ≠ "v-b" ∧
      zkPayload "v-a" "f" [] "s" ≠ zkPayload "v-b" "f" [] "s" :=
  ⟨by decide, c9_circuit_version_amended "f" [] "s" "v-a" "v-b" (by decide)⟩

/-! ## C10, C2, C3: the verification gate in `run_once` -/

/-- C10 (confirmed): the verification-failure branch of `run_once` is
unreachable — since `verify_zk_proof` recomputes the hash that
`generate_zk_proof` just produced from identical arguments, the gate always
passes: `run_once` never raises the ZK verification `RuntimeError`, and
every released `RunResult` has `proof.verification_result = true`
(`zkGateHolds` is `false` exactly on those two violations). -/
theorem c10_gate_unreachable (hasFHE : Bool) (cap cap2 : CapOutcome)
    (now_run_id now_timestamp sensitive_input scenario : String) (force_fallback : Bool) :
    zkGateHolds (run_once hasFHE cap cap2 now_run_id now_timestamp sensitive_input scenario
      force_fallback) = true := by
  unfold run_once run_once_gen
  split
  · simp only [finishRun, verify_generate_true]
    simp [zkGateHolds]
  · cases cap2 with
    | fail m => simp [zkGateHolds]
    | ok r e c2 =>
      simp only [finishRun, verify_generate_true]
      simp [zkGateHolds]

/-- C2 (confirmed): for every injected verification step (the spec's
"forced to fail" gate), every capability behaviour, inputs, scenario and
`force_fallback` value — if the verification step applied to the run's
freshly generated proof hash and its actual compute result returns `false`,
then `run_once_gen` raises and releases no `RunResult`. -/
theorem c2_verification_gate
    (verifier : String → String → ComputeResult → String → Bool)
    (hasFHE : Bool) (cap cap2 : CapOutcome) (now_run_id now_timestamp : String)
    (sensitive_input scenario : String) (force_fallback : Bool)
    (hfail : verifier
        (generate_zk_proof (compute_input_fingerprint sensitive_input)
          (perform_fhe_computation hasFHE cap sensitive_input scenario).1 scenario)
        (compute_input_fingerprint sensitive_input)
        (perform_fhe_computation hasFHE cap sensitive_input scenario).1 scenario = false) :
    isOkRun (run_once_gen verifier hasFHE cap cap2 now_run_id now_timestamp sensitive_input
      scenario force_fallback) = false := by
  unfold run_once_gen
  split
  · simp only [finishRun]
    rw [hfail]
    simp [isOkRun]
  · cases cap2 with
    | fail m => simp [isOkRun]
    | ok r e c2 =>
      simp only [finishRun]
      rw [hfail]
      simp [isOkRun]

/-- Witness for C2: a verifier that always rejects makes the run release
nothing. -/
theorem c2_verification_gate_witness :
    ((fun _ _ _ _ => false) : String → String → ComputeResult → String → Bool)
        (generate_zk_proof (compute_input_fingerprint "demo-sensitive")
          (perform_fhe_computation false (.fail "") "demo-sensitive" "test-scenario").1
          "test-scenario")
        (compute_input_fingerprint "demo-sensitive")
        (perform_fhe_computation false (.fail "") "demo-sensitive" "test-scenario").1
        "test-scenario" = false ∧
      isOkRun (run_once_gen (fun _ _ _ _ => false) false (.fail "") (.fail "") "t1" "t2"
        "demo-sensitive" "test-scenario" false) = false :=
  ⟨rfl, c2_verification_gate _ _ _ _ _ _ _ _ _ rfl⟩

/-- C3 (code_bug): evaluation of the code at the failing configuration.
With the FHE capability available and working, a run forced to fall back
(`force_fallback = true`) still performs the real FHE computation:
`run_once` ignores the flag when selecting the compute path (the flag only
changes the reported crypto-primitive labels), so the released result has
`fhe_enabled = true` and mode `"fhe-seal-homomorphic-encryption"` instead of
the claimed Simulated fallback. -/
theorem c3_force_fallback_ignored (risk : Int) (encMs compMs : Nat) (cap2 : CapOutcome)
    (now_run_id now_timestamp sensitive_input scenario : String) :
    runComputeField (run_once true (.ok risk encMs compMs) cap2 now_run_id now_timestamp
        sensitive_input scenario true) "fhe_enabled" = some (.bool true) ∧
      runMode (run_once true (.ok risk encMs compMs) cap2 now_run_id now_timestamp
        sensitive_input scenario true) = some "fhe-seal-homomorphic-encryption" := by
  unfold run_once run_once_gen perform_fhe_computation
  simp only [Bool.not_true, Bool.true_or, if_true, finishRun, verify_generate_true]
  constructor
  · simp only [runComputeField]
    rfl
  · simp [runMode]
